import Mathlib

/-!
Verification of the community-server core against its specification.

The TypeScript source is shallowly embedded: every collaborator that the
reviewed classes call into (stores, patchers, extractors, the file data
accessor, the file system) is modelled as a record of pure functions
returning `Except HttpError` results, and every externally observable
effect of a method is additionally recorded in an explicit event trace,
so that claims of the form "X is never invoked" become statements about
the trace a run produces.
-/

namespace CommunityServer

/-- A URI-like path identifying a document or container
(src/http/representation/ResourceIdentifier). -/
structure ResourceIdentifier where
  path : String
deriving DecidableEq, Repr

/-- Multi-valued attribute map describing a representation
(src/http/representation/RepresentationMetadata): a list of
(predicate, value) pairs in insertion order. -/
structure RepresentationMetadata where
  entries : List (String × String) := []
deriving DecidableEq, Repr

/-- All values stored for one predicate, in insertion order
(RepresentationMetadata.getAll). -/
def RepresentationMetadata.getAll (m : RepresentationMetadata) (predicate : String) :
    List String :=
  (m.entries.filter (fun e => e.1 == predicate)).map (fun e => e.2)

/-- Metadata freshly constructed for an identifier, as by
`new RepresentationMetadata(id)`: no attribute entries yet. -/
def RepresentationMetadata.ofIdentifier (_ : ResourceIdentifier) : RepresentationMetadata :=
  { entries := [] }

/-- The `secure` preference the modified server threads through operations:
`{ enable: 0 | 1 }`. -/
structure SecureFlag where
  enable : Nat
deriving DecidableEq, Repr

/-- Representation preferences (src/http/representation/RepresentationPreferences).
Content-negotiation fields are opaque to the reviewed code and kept as an
abstract association list; the `secure` field is the one the
AuthorizingHttpHandler writes. -/
structure RepresentationPreferences where
  secure : Option SecureFlag := none
  extra : List (String × String) := []
deriving DecidableEq, Repr

/-- The empty preferences object `{}`. -/
def emptyPreferences : RepresentationPreferences := {}

/-- A resource representation: metadata plus a data payload
(src/http/representation/Representation); the payload is kept abstract as
a list of chunks. -/
structure Representation where
  metadata : RepresentationMetadata := {}
  data : List String := []
deriving DecidableEq, Repr

/-- Optimistic-concurrency preconditions (src/storage/Conditions): spec section 3
lists revision-token match and absence checks as recognized shapes. The
decorators treat the value opaquely. -/
inductive Conditions where
  | ifMatch (token : Nat)
  | notExists
deriving DecidableEq, Repr

/-- A quad of a parsed SPARQL update, reduced to the two components the
reviewed code reads: `quad.predicate.value` and `quad.object.value`. -/
structure Quad where
  predicate : String
  object : String
deriving DecidableEq, Repr

/-- One entry of `algebra.updates`: may carry a delete and/or an insert
quad collection (absent fields are `none`). -/
structure UpdateEntry where
  deleteData : Option (List Quad) := none
  insertData : Option (List Quad) := none
deriving DecidableEq, Repr

/-- The `algebra` field of a SparqlUpdatePatch, reduced to the parts the
reviewed code inspects: `updates`, `delete` and `insert`; each may be absent. -/
structure Algebra where
  updates : Option (List UpdateEntry) := none
  deleteData : Option (List Quad) := none
  insertData : Option (List Quad) := none
deriving DecidableEq, Repr

/-- A patch instruction (src/http/representation/Patch). The instruction body is
opaque (`content`); a SparqlUpdatePatch additionally carries a parsed
`algebra`, absent on other dialects. -/
structure Patch where
  content : List String := []
  algebra : Option Algebra := none
deriving DecidableEq, Repr

/-- The error kinds surfaced at the boundary (spec section 6); `internal` stands
for any backend failure, tagged to keep distinct failures distinguishable. -/
inductive HttpError where
  | notFound
  | preconditionFailed
  | unauthorized
  | forbidden
  | validation
  | internal (code : Nat)
deriving DecidableEq, Repr

/-- One invocation of a ResourceStore operation, with the exact arguments
passed (src/storage/ResourceStore signatures). -/
inductive StoreCall where
  | hasResource (identifier : ResourceIdentifier)
  | getRepresentation (identifier : ResourceIdentifier)
      (preferences : RepresentationPreferences) (conditions : Option Conditions)
  | addResource (container : ResourceIdentifier) (representation : Representation)
      (conditions : Option Conditions)
  | deleteResource (identifier : ResourceIdentifier) (conditions : Option Conditions)
  | modifyResource (identifier : ResourceIdentifier) (patch : Patch)
      (conditions : Option Conditions) (preferences : Option RepresentationPreferences)
  | setRepresentation (identifier : ResourceIdentifier) (representation : Representation)
      (conditions : Option Conditions) (preferences : Option RepresentationPreferences)
deriving DecidableEq, Repr

/-- The ResourceStore interface (src/storage/ResourceStore). Each operation
returns its result together with the trace of store calls it performed, so
a wrapped store can report exactly which calls reached it. -/
structure ResourceStore where
  hasResource : ResourceIdentifier → Except HttpError Bool × List StoreCall
  getRepresentation : ResourceIdentifier → RepresentationPreferences →
      Option Conditions → Except HttpError Representation × List StoreCall
  addResource : ResourceIdentifier → Representation → Option Conditions →
      Except HttpError ResourceIdentifier × List StoreCall
  deleteResource : ResourceIdentifier → Option Conditions →
      Except HttpError (List ResourceIdentifier) × List StoreCall
  modifyResource : ResourceIdentifier → Patch → Option Conditions →
      Option RepresentationPreferences →
      Except HttpError (List ResourceIdentifier) × List StoreCall
  setRepresentation : ResourceIdentifier → Representation → Option Conditions →
      Option RepresentationPreferences →
      Except HttpError (List ResourceIdentifier) × List StoreCall

/-- src/storage/PassthroughStore: a decorator calling the corresponding function
of the source store with the same arguments and returning its result. -/
def PassthroughStore (source : ResourceStore) : ResourceStore where
  hasResource := fun identifier => source.hasResource identifier
  getRepresentation := fun identifier preferences conditions =>
    source.getRepresentation identifier preferences conditions
  addResource := fun container representation conditions =>
    source.addResource container representation conditions
  deleteResource := fun identifier conditions =>
    source.deleteResource identifier conditions
  modifyResource := fun identifier patch conditions preferences =>
    source.modifyResource identifier patch conditions preferences
  setRepresentation := fun identifier representation conditions preferences =>
    source.setRepresentation identifier representation conditions preferences

/-- Pure behaviour of a backing store: what each operation answers,
independent of instrumentation. -/
structure StoreBehavior where
  hasResourceFn : ResourceIdentifier → Except HttpError Bool
  getRepresentationFn : ResourceIdentifier → RepresentationPreferences →
      Option Conditions → Except HttpError Representation
  addResourceFn : ResourceIdentifier → Representation → Option Conditions →
      Except HttpError ResourceIdentifier
  deleteResourceFn : ResourceIdentifier → Option Conditions →
      Except HttpError (List ResourceIdentifier)
  modifyResourceFn : ResourceIdentifier → Patch → Option Conditions →
      Option RepresentationPreferences → Except HttpError (List ResourceIdentifier)
  setRepresentationFn : ResourceIdentifier → Representation → Option Conditions →
      Option RepresentationPreferences → Except HttpError (List ResourceIdentifier)

/-- A recording store: answers according to the given behaviour and reports
exactly the one call it received — the observation device of spec section 8
("observable via a recording store"). -/
def recordingStore (b : StoreBehavior) : ResourceStore where
  hasResource := fun identifier =>
    (b.hasResourceFn identifier, [StoreCall.hasResource identifier])
  getRepresentation := fun identifier preferences conditions =>
    (b.getRepresentationFn identifier preferences conditions,
     [StoreCall.getRepresentation identifier preferences conditions])
  addResource := fun container representation conditions =>
    (b.addResourceFn container representation conditions,
     [StoreCall.addResource container representation conditions])
  deleteResource := fun identifier conditions =>
    (b.deleteResourceFn identifier conditions,
     [StoreCall.deleteResource identifier conditions])
  modifyResource := fun identifier patch conditions preferences =>
    (b.modifyResourceFn identifier patch conditions preferences,
     [StoreCall.modifyResource identifier patch conditions preferences])
  setRepresentation := fun identifier representation conditions preferences =>
    (b.setRepresentationFn identifier representation conditions preferences,
     [StoreCall.setRepresentation identifier representation conditions preferences])

/-- The pluggable patch engine (src/storage/patch/RepresentationPatcher):
computes a new representation from the patch, the identifier and the current
representation, which is absent when the resource does not exist. -/
structure RepresentationPatcher where
  handleSafe : Patch → ResourceIdentifier → Option Representation →
      Except HttpError Representation

/-- The file data accessor the patch handler instantiates directly
(src/storage/accessors/FileDataAccessor as used in
RepresentationPatchHandler): `getData` takes an optional secure option
object, `writeDocument` writes data with metadata and an optional secure
option object. -/
structure FileDataAccessor where
  getData : ResourceIdentifier → Option SecureFlag → Except HttpError (List String)
  writeDocument : ResourceIdentifier → List String → RepresentationMetadata →
      Option SecureFlag → Except HttpError Unit

/-- Observable events of one RepresentationPatchHandler.handle run: store
calls self-reported by the source store, the patcher invocation with the
exact arguments it received, and the direct file-accessor calls of the
secure-flag block. -/
inductive PatchEvent where
  | store (call : StoreCall)
  | patcher (patch : Patch) (identifier : ResourceIdentifier)
      (representation : Option Representation)
  | accessorGetData (identifier : ResourceIdentifier) (secureArg : Option SecureFlag)
  | accessorWriteDocument (identifier : ResourceIdentifier)
      (secureArg : Option SecureFlag)
deriving DecidableEq, Repr

/-- The predicate the secure-flag block looks for in the patch algebra. -/
def securePredicate : String := "http://zteq.com/ac/0.1/secureOff"

/-- JS `algebra.updates?.find((item) => item.delete)?.delete || algebra.delete || {}`:
the delete quads of the first update entry carrying a delete field, else the
top-level delete field, else nothing (`Object.values({}) = []`). -/
def Algebra.deleteQuads (alg : Algebra) : List Quad :=
  match alg.updates with
  | some us =>
    match us.find? (fun u => u.deleteData.isSome) with
    | some u => u.deleteData.getD []
    | none => alg.deleteData.getD []
  | none => alg.deleteData.getD []

/-- JS `algebra.updates?.find((item) => item.insert)?.insert || algebra.insert || {}`. -/
def Algebra.insertQuads (alg : Algebra) : List Quad :=
  match alg.updates with
  | some us =>
    match us.find? (fun u => u.insertData.isSome) with
    | some u => u.insertData.getD []
    | none => alg.insertData.getD []
  | none => alg.insertData.getD []

/-- One pass of the secure-flag block over a list of resource paths: for each
path, `accessor.getData(id, getArg)` then `accessor.writeDocument(id, data,
new RepresentationMetadata(id), writeArg)`. Any accessor failure aborts the
remaining iterations (the surrounding try is left). Returns the accessor
events performed and whether the pass aborted. -/
def secureLoop (accessor : FileDataAccessor) (getArg writeArg : Option SecureFlag) :
    List String → List PatchEvent × Bool
  | [] => ([], false)
  | path :: rest =>
    let id : ResourceIdentifier := { path := path }
    match accessor.getData id getArg with
    | .error _ => ([PatchEvent.accessorGetData id getArg], true)
    | .ok data =>
      match accessor.writeDocument id data (RepresentationMetadata.ofIdentifier id)
          writeArg with
      | .error _ =>
        ([PatchEvent.accessorGetData id getArg,
          PatchEvent.accessorWriteDocument id writeArg], true)
      | .ok _ =>
        (PatchEvent.accessorGetData id getArg ::
          PatchEvent.accessorWriteDocument id writeArg ::
            (secureLoop accessor getArg writeArg rest).1,
         (secureLoop accessor getArg writeArg rest).2)

/-- The try-block of RepresentationPatchHandler.handle between the patcher call
and the commit: when the patch carries an `algebra`, collect from its delete
data the objects of quads whose predicate is `securePredicate` and rewrite each
such resource through the file accessor (getData with `{secure: {enable: 0}}`,
write without options), then likewise for the insert data (getData without
options, write with `{secure: {enable: 0}}`). Every error is caught and only
logged; it aborts the rest of the block but never the request. -/
def RepresentationPatchHandler.secureBlock (accessor : FileDataAccessor)
    (patch : Patch) : List PatchEvent :=
  match patch.algebra with
  | none => []
  | some alg =>
    let secureResources :=
      ((alg.deleteQuads.filter (fun q => q.predicate == securePredicate)).map
        Quad.object)
    let pass1 := secureLoop accessor (some { enable := 0 }) none secureResources
    if pass1.2 then pass1.1
    else
      let unsecureResources :=
        ((alg.insertQuads.filter (fun q => q.predicate == securePredicate)).map
          Quad.object)
      pass1.1 ++ (secureLoop accessor none (some { enable := 0 }) unsecureResources).1

/-- RepresentationPatchHandler.handle after the pre-read resolved:
`representation` is the pre-read result, absent when the store reported
NotFound. Invokes the patcher; on patcher failure the error propagates and
nothing else runs. On success, runs the secure-flag block, then commits with
`source.setRepresentation(identifier, patched, undefined, preferences)` and
returns that result. -/
def RepresentationPatchHandler.afterPreRead (patcher : RepresentationPatcher)
    (accessor : FileDataAccessor) (source : ResourceStore)
    (identifier : ResourceIdentifier) (patch : Patch)
    (preferences : Option RepresentationPreferences)
    (representation : Option Representation) :
    Except HttpError (List ResourceIdentifier) × List PatchEvent :=
  match patcher.handleSafe patch identifier representation with
  | .error e => (.error e, [PatchEvent.patcher patch identifier representation])
  | .ok patched =>
    let secureEvents := RepresentationPatchHandler.secureBlock accessor patch
    ((source.setRepresentation identifier patched none preferences).1,
     PatchEvent.patcher patch identifier representation ::
       (secureEvents ++
         (source.setRepresentation identifier patched none preferences).2.map
           PatchEvent.store))

/-- src/storage/patch/RepresentationPatchHandler.handle: pre-read
`source.getRepresentation(identifier, {})`; a NotFound failure is swallowed
(the resource is being created) and any other failure is rethrown; then the
patcher, secure-flag block and commit as in `afterPreRead`. The result pairs
the returned value with the trace of observable events. -/
def RepresentationPatchHandler.handle (patcher : RepresentationPatcher)
    (accessor : FileDataAccessor) (source : ResourceStore)
    (identifier : ResourceIdentifier) (patch : Patch)
    (preferences : Option RepresentationPreferences) :
    Except HttpError (List ResourceIdentifier) × List PatchEvent :=
  let getEvents :=
    (source.getRepresentation identifier emptyPreferences none).2.map PatchEvent.store
  match (source.getRepresentation identifier emptyPreferences none).1 with
  | .ok representation =>
    ((RepresentationPatchHandler.afterPreRead patcher accessor source identifier
        patch preferences (some representation)).1,
     getEvents ++
       (RepresentationPatchHandler.afterPreRead patcher accessor source identifier
         patch preferences (some representation)).2)
  | .error e =>
    if e = HttpError.notFound then
      ((RepresentationPatchHandler.afterPreRead patcher accessor source identifier
          patch preferences none).1,
       getEvents ++
         (RepresentationPatchHandler.afterPreRead patcher accessor source identifier
           patch preferences none).2)
    else
      (.error e, getEvents)

/-- Whether an event is a mutation of observable storage state: a
setRepresentation on the store (also addResource, deleteResource,
modifyResource for completeness) or a direct accessor document write. -/
def PatchEvent.isMutation : PatchEvent → Bool
  | .store (StoreCall.setRepresentation _ _ _ _) => true
  | .store (StoreCall.addResource _ _ _) => true
  | .store (StoreCall.deleteResource _ _) => true
  | .store (StoreCall.modifyResource _ _ _ _) => true
  | .accessorWriteDocument _ _ => true
  | _ => false

/-- Whether an event is a direct file-accessor call, bypassing the store. -/
def PatchEvent.isAccessorCall : PatchEvent → Bool
  | .accessorGetData _ _ => true
  | .accessorWriteDocument _ _ => true
  | _ => false

/-- An inbound HTTP request, opaque to the orchestrator apart from being
handed to the credentials extractor; kept abstract as a header list. -/
structure Request where
  headers : List (String × String) := []
deriving DecidableEq, Repr

/-- An agent identity claim (a WebID). -/
structure Agent where
  webId : String
deriving DecidableEq, Repr

/-- Identity claims extracted from a request (src/authentication/Credentials):
all fields optional, empty means anonymous. -/
structure CredentialSet where
  agent : Option Agent := none
  client : Option String := none
  issuer : Option String := none
deriving DecidableEq, Repr

/-- The access modes of spec section 3. -/
inductive AccessMode where
  | read
  | append
  | create
  | write
  | delete
  | control
deriving DecidableEq, Repr

/-- Granted/denied status per mode (src/authorization PermissionSet). -/
structure PermissionSet where
  read : Bool := false
  append : Bool := false
  create : Bool := false
  write : Bool := false
  delete : Bool := false
  control : Bool := false
deriving DecidableEq, Repr

/-- The attribute-permissions record the handler creates as
`{ readOnly: [], hide: [] }` and passes to the permission reader. -/
structure AttributePermissions where
  readOnly : List String := []
  hide : List String := []
deriving DecidableEq, Repr

/-- The unit flowing through the pipeline (spec section 3 Operation): target,
method, opaque body with an optional sparql field, preferences, and the
fields the orchestrator itself attaches after authorization. -/
structure Operation where
  method : String := ""
  target : ResourceIdentifier
  body : List String := []
  bodySparql : Option String := none
  preferences : RepresentationPreferences := {}
  permissionSet : Option PermissionSet := none
  attributePermissions : Option AttributePermissions := none
deriving DecidableEq, Repr

/-- A response produced by the downstream operation handler, kept abstract. -/
structure ResponseDescription where
  statusCode : Nat
deriving DecidableEq, Repr

/-- Stage 1 collaborator: extracts credentials from the request. -/
structure CredentialsExtractor where
  handleSafe : Request → Except HttpError CredentialSet

/-- Stage 2 collaborator: extracts the required modes from the operation. -/
structure ModesExtractor where
  handleSafe : Operation → Except HttpError (List AccessMode)

/-- Stage 3 collaborator: reads the permissions for credentials, target and
modes. The JS code also hands it the freshly created attribute-permissions
object, which the reader may fill in place; that in-place mutation is
modelled by the reader returning the possibly updated record alongside the
permission set. -/
structure PermissionReader where
  handleSafe : CredentialSet → ResourceIdentifier → List AccessMode →
      AttributePermissions → Except HttpError (PermissionSet × AttributePermissions)

/-- Stage 4 collaborator: decides whether the operation is allowed; failure
carries Unauthorized or Forbidden. -/
structure Authorizer where
  handleSafe : CredentialSet → ResourceIdentifier → List AccessMode →
      PermissionSet → Except HttpError Unit

/-- The downstream operation handler invoked after authorization. -/
structure OperationHttpHandler where
  handleSafe : Request → Operation → Except HttpError ResponseDescription

/-- The identifier strategy the secure block instantiates
(SingleRootIdentifierStrategy with a fixed origin). Its source is not part
of the reviewed material; it is kept abstract as the two pure operations
the block calls. -/
structure IdentifierStrategy where
  isRootContainer : ResourceIdentifier → Bool
  getParentContainer : ResourceIdentifier → ResourceIdentifier

/-- The metadata side of the file accessor the secure block instantiates. -/
structure MetadataAccessor where
  getMetadata : ResourceIdentifier → Except HttpError RepresentationMetadata

/-- The collaborators wired into AuthorizingHttpHandler
(src/server/AuthorizingHttpHandler constructor arguments, plus the
identifier strategy and the file accessor its secure block constructs with
hard-coded configuration). -/
structure AuthorizingHttpHandlerArgs where
  credentialsExtractor : CredentialsExtractor
  modesExtractor : ModesExtractor
  permissionReader : PermissionReader
  authorizer : Authorizer
  operationHandler : OperationHttpHandler
  identifierStrategy : IdentifierStrategy
  accessor : MetadataAccessor

/-- Observable events of one AuthorizingHttpHandler.handle run: the four
pipeline stage calls with the exact arguments passed, the parent-metadata
read of the secure block, and the downstream handler call with the
operation it received. -/
inductive AuthEvent where
  | credentialsCall (request : Request)
  | modesCall (operation : Operation)
  | permissionCall (credentials : CredentialSet) (identifier : ResourceIdentifier)
      (modes : List AccessMode) (attributePermissions : AttributePermissions)
  | authorizeCall (credentials : CredentialSet) (identifier : ResourceIdentifier)
      (modes : List AccessMode) (permissionSet : PermissionSet)
  | metadataCall (identifier : ResourceIdentifier)
  | downstreamCall (operation : Operation)
deriving DecidableEq, Repr

/-- The try-block of AuthorizingHttpHandler.handle after authorization: when
the target is not the root container, read the parent container's metadata
through the file accessor, and set `operation.preferences.secure.enable` to 0
when the parent's `secureOff` values contain the target path and to 1
otherwise. Any error is caught and only logged (the operation is then left
unchanged). Returns the resulting operation and the accessor events. -/
def AuthorizingHttpHandler.secureBlock (strategy : IdentifierStrategy)
    (accessor : MetadataAccessor) (operation : Operation) :
    Operation × List AuthEvent :=
  if strategy.isRootContainer operation.target then (operation, [])
  else
    let parent := strategy.getParentContainer operation.target
    match accessor.getMetadata parent with
    | .error _ => (operation, [AuthEvent.metadataCall parent])
    | .ok metadata =>
      let list := metadata.getAll securePredicate
      let filteredList := list.filter (fun item => item == operation.target.path)
      ({ operation with
          preferences := { operation.preferences with
            secure := some { enable := if filteredList.isEmpty then 1 else 0 } } },
       [AuthEvent.metadataCall parent])

/-- src/server/AuthorizingHttpHandler.handle: runs credentials extraction,
modes extraction, permission reading and authorization strictly in this
order, short-circuiting on the first failure; on authorize success attaches
the permission set and the attribute permissions to the operation, runs the
secure-flag block, and forwards request and resulting operation to the
downstream operation handler. Returns the result, the final operation and
the event trace. -/
def AuthorizingHttpHandler.handle (args : AuthorizingHttpHandlerArgs)
    (request : Request) (operation : Operation) :
    Except HttpError ResponseDescription × Operation × List AuthEvent :=
  match args.credentialsExtractor.handleSafe request with
  | .error e => (.error e, operation, [AuthEvent.credentialsCall request])
  | .ok credentials =>
    match args.modesExtractor.handleSafe operation with
    | .error e =>
      (.error e, operation,
       [AuthEvent.credentialsCall request, AuthEvent.modesCall operation])
    | .ok modes =>
      let attributePermissions0 : AttributePermissions := { readOnly := [], hide := [] }
      match args.permissionReader.handleSafe credentials operation.target modes
          attributePermissions0 with
      | .error e =>
        (.error e, operation,
         [AuthEvent.credentialsCall request, AuthEvent.modesCall operation,
          AuthEvent.permissionCall credentials operation.target modes
            attributePermissions0])
      | .ok (permissionSet, attributePermissions) =>
        match args.authorizer.handleSafe credentials operation.target modes
            permissionSet with
        | .error e =>
          (.error e, operation,
           [AuthEvent.credentialsCall request, AuthEvent.modesCall operation,
            AuthEvent.permissionCall credentials operation.target modes
              attributePermissions0,
            AuthEvent.authorizeCall credentials operation.target modes permissionSet])
        | .ok _ =>
          let operation1 := { operation with
            permissionSet := some permissionSet,
            attributePermissions := some attributePermissions }
          let operation2 :=
            (AuthorizingHttpHandler.secureBlock args.identifierStrategy args.accessor
              operation1).1
          (args.operationHandler.handleSafe request operation2, operation2,
           [AuthEvent.credentialsCall request, AuthEvent.modesCall operation,
            AuthEvent.permissionCall credentials operation.target modes
              attributePermissions0,
            AuthEvent.authorizeCall credentials operation.target modes permissionSet]
             ++ (AuthorizingHttpHandler.secureBlock args.identifierStrategy
                  args.accessor operation1).2
             ++ [AuthEvent.downstreamCall operation2])

/-- Whether an event is the downstream handler call. -/
def AuthEvent.isDownstream : AuthEvent → Bool
  | .downstreamCall _ => true
  | _ => false

/-- Observable events of one ContainerInitializer.handle run. -/
inductive InitEvent where
  | setRepresentationCall (identifier : ResourceIdentifier)
      (representation : Representation)
  | readdirCall (folder : String)
  | mkdirCall (path : String)
  | copyFileCall (src : String) (dest : String)
  | flagSet (key : String) (value : Bool)
deriving DecidableEq, Repr

/-- The store operation ContainerInitializer uses. -/
structure InitStore where
  setRepresentation : ResourceIdentifier → Representation →
      Except HttpError (List ResourceIdentifier)

/-- The fs.promises operations ContainerInitializer uses. -/
structure FileSystem where
  readdir : String → Except HttpError (List String)
  mkdir : String → Except HttpError Unit
  copyFile : String → String → Except HttpError Unit

/-- The key-value storage marking one-time initialization complete. -/
structure KeyValueStorage where
  set : String → Bool → Except HttpError Unit

/-- Node `joinFilePath` reduced to joining with a separator. -/
def joinFilePath (a b : String) : String := a ++ "/" ++ b

/-- The `for await` loop of ContainerInitializer.handle over the generated
resources: the generator is modelled as the list of its yields, where an
`error` element is the iteration itself failing at that point (aborting the
loop with that error, the earlier yields already processed). For each yielded
resource, `store.setRepresentation` is attempted; its failure is caught and
logged and the count simply not incremented. Returns the count result and
the store events. -/
def ContainerInitializer.resourceLoop (store : InitStore) :
    List (Except HttpError (ResourceIdentifier × Representation)) →
    Except HttpError Nat × List InitEvent
  | [] => (.ok 0, [])
  | .error e :: _ => (.error e, [])
  | .ok (resourceId, representation) :: rest =>
    let step : Nat :=
      match store.setRepresentation resourceId representation with
      | .ok _ => 1
      | .error _ => 0
    ((ContainerInitializer.resourceLoop store rest).1.map (fun n => n + step),
     InitEvent.setRepresentationCall resourceId representation ::
       (ContainerInitializer.resourceLoop store rest).2)

/-- The copy loop over the account-folder files: each file is copied into
`rootFilePath/.internal/accounts`; a copy failure propagates (aborting the
remaining copies). -/
def ContainerInitializer.copyLoop (fs : FileSystem) (accountFolder destDir : String) :
    List String → Except HttpError Unit × List InitEvent
  | [] => (.ok (), [])
  | name :: rest =>
    let src := joinFilePath accountFolder name
    let dest := joinFilePath destDir name
    match fs.copyFile src dest with
    | .error e => (.error e, [InitEvent.copyFileCall src dest])
    | .ok _ =>
      ((ContainerInitializer.copyLoop fs accountFolder destDir rest).1,
       InitEvent.copyFileCall src dest ::
         (ContainerInitializer.copyLoop fs accountFolder destDir rest).2)

/-- The account-folder block of ContainerInitializer.handle, run when
`rootFilePath` is configured: read the account folder; when it is non-empty,
create `rootFilePath/.internal/accounts` and copy every file into it. Any
failure propagates (it is not caught). -/
def ContainerInitializer.copyAccounts (fs : FileSystem)
    (rootFilePath accountFolder : String) : Except HttpError Unit × List InitEvent :=
  match fs.readdir accountFolder with
  | .error e => (.error e, [InitEvent.readdirCall accountFolder])
  | .ok files =>
    if files.isEmpty then (.ok (), [InitEvent.readdirCall accountFolder])
    else
      let destDir := joinFilePath rootFilePath ".internal/accounts"
      match fs.mkdir destDir with
      | .error e =>
        (.error e, [InitEvent.readdirCall accountFolder, InitEvent.mkdirCall destDir])
      | .ok _ =>
        ((ContainerInitializer.copyLoop fs accountFolder destDir files).1,
         InitEvent.readdirCall accountFolder :: InitEvent.mkdirCall destDir ::
           (ContainerInitializer.copyLoop fs accountFolder destDir files).2)

/-- ContainerInitializer.handle (source outside src/, read from the reviewed
initializer file): iterate the generated resources attempting
`setRepresentation` for each with per-resource failures caught and logged;
then, when `rootFilePath` is configured, copy the account folder; finally
mark initialization complete with `storage.set(storageKey, true)`. A failure
of the generator iteration, of the account-folder block or of the flag write
itself propagates and the flag is not recorded as set. -/
def ContainerInitializer.handle (store : InitStore) (fs : FileSystem)
    (storage : KeyValueStorage) (storageKey : String)
    (generatorOutput : List (Except HttpError (ResourceIdentifier × Representation)))
    (rootFilePath : Option String) (accountFolder : String) :
    Except HttpError Unit × List InitEvent :=
  let loopEvents := (ContainerInitializer.resourceLoop store generatorOutput).2
  match (ContainerInitializer.resourceLoop store generatorOutput).1 with
  | .error e => (.error e, loopEvents)
  | .ok _count =>
    let copyOutcome :=
      match rootFilePath with
      | none => ((.ok () : Except HttpError Unit), ([] : List InitEvent))
      | some root => ContainerInitializer.copyAccounts fs root accountFolder
    match copyOutcome.1 with
    | .error e => (.error e, loopEvents ++ copyOutcome.2)
    | .ok _ =>
      match storage.set storageKey true with
      | .error e => (.error e, loopEvents ++ copyOutcome.2)
      | .ok _ =>
        (.ok (), loopEvents ++ copyOutcome.2 ++ [InitEvent.flagSet storageKey true])

/-- Whether an event is the completion-flag write. -/
def InitEvent.isFlagSet : InitEvent → Bool
  | .flagSet _ _ => true
  | _ => false

/-- Modelled from the spec: the concrete ResourceStore backend that
implements the Conditions contract is not part of the reviewed source (only
the interface and its decorators are), so the per-identifier state it guards
is modelled from spec sections 4.2 and 5: the current representation, if any,
together with a revision token that changes on every applied mutation. -/
structure CondStoreState where
  representation : Option Representation := none
  token : Nat := 0
deriving DecidableEq, Repr

/-- Modelled from the spec: evaluation of a Conditions predicate against the
current per-identifier state (spec section 3: "matches token T", "resource must
not exist"). -/
def Conditions.holds : Conditions → CondStoreState → Bool
  | .ifMatch t, s => s.token == t
  | .notExists, s => s.representation.isNone

/-- Modelled from the spec: a conditional `setRepresentation` on one
identifier as spec section 4.2 requires — the predicate is evaluated against the
current state and the mutation applied as one atomic step; on violation the
operation fails PreconditionFailed and the state is returned unchanged. An
applied mutation stores the new representation and advances the revision
token. -/
def CondStore.setRepresentation (s : CondStoreState) (rep : Representation)
    (conditions : Option Conditions) : Except HttpError Unit × CondStoreState :=
  match conditions with
  | none => (.ok (), { representation := some rep, token := s.token + 1 })
  | some c =>
    if c.holds s then (.ok (), { representation := some rep, token := s.token + 1 })
    else (.error HttpError.preconditionFailed, s)

/-- The outcome of the patch handler's pre-read step: `ok (some r)` when the
store returns a representation, `ok none` when it fails NotFound (the
swallowed case), and the error itself otherwise. -/
def preReadOutcome (source : ResourceStore) (identifier : ResourceIdentifier) :
    Except HttpError (Option Representation) :=
  match (source.getRepresentation identifier emptyPreferences none).1 with
  | .ok r => .ok (some r)
  | .error HttpError.notFound => .ok none
  | .error e => .error e

/-! Concrete collaborator instances used to evaluate the embedded code on
closed inputs. -/

/-- A sample target resource. -/
def sampleIdentifier : ResourceIdentifier := { path := "http://localhost:3001/foo" }

/-- A sample stored representation. -/
def sampleRepresentation : Representation := { data := ["old"] }

/-- A sample patcher output. -/
def patchedRepresentation : Representation := { data := ["patched"] }

/-- A backing behaviour where every operation succeeds. -/
def okStoreBehavior : StoreBehavior where
  hasResourceFn := fun _ => .ok true
  getRepresentationFn := fun _ _ _ => .ok sampleRepresentation
  addResourceFn := fun container _ _ => .ok container
  deleteResourceFn := fun identifier _ => .ok [identifier]
  modifyResourceFn := fun identifier _ _ _ => .ok [identifier]
  setRepresentationFn := fun identifier _ _ _ => .ok [identifier]

/-- A backing behaviour whose reads fail NotFound (the resource is absent). -/
def missingStoreBehavior : StoreBehavior :=
  { okStoreBehavior with getRepresentationFn := fun _ _ _ => .error HttpError.notFound }

/-- A backing behaviour whose reads fail with an internal error. -/
def brokenStoreBehavior : StoreBehavior :=
  { okStoreBehavior with getRepresentationFn := fun _ _ _ => .error (HttpError.internal 7) }

/-- A patcher that always succeeds with `patchedRepresentation`. -/
def okPatcher : RepresentationPatcher where
  handleSafe := fun _ _ _ => .ok patchedRepresentation

/-- A patcher that fails deterministically. -/
def failingPatcher : RepresentationPatcher where
  handleSafe := fun _ _ _ => .error HttpError.validation

/-- A file accessor whose operations succeed. -/
def okFileAccessor : FileDataAccessor where
  getData := fun _ _ => .ok ["bytes"]
  writeDocument := fun _ _ _ _ => .ok ()

/-- A patch whose algebra deletes a quad with the secureOff predicate. -/
def securePatch : Patch :=
  { content := ["DELETE DATA"],
    algebra := some
      { deleteData := some
          [{ predicate := securePredicate, object := "http://localhost:3001/s" }] } }

/-- The same patch shape with an unrelated predicate. -/
def plainPatch : Patch :=
  { content := ["DELETE DATA"],
    algebra := some
      { deleteData := some
          [{ predicate := "http://example.org/p",
             object := "http://localhost:3001/s" }] } }

/-- A sample inbound request. -/
def sampleRequest : Request := { headers := [("host", "localhost")] }

/-- A sample operation entering the authorization pipeline. -/
def sampleOperation : Operation := { method := "PATCH", target := sampleIdentifier }

/-- A sample extracted credential set. -/
def sampleCredentials : CredentialSet :=
  { agent := some { webId := "http://localhost:3001/profile/card#me" } }

/-- A sample granted permission set. -/
def grantedPermissionSet : PermissionSet := { read := true, write := true }

/-- Pipeline collaborators where every stage succeeds; the identifier
strategy reports a parent container and the accessor finds a secureOff
entry for the sample target. -/
def okAuthArgs : AuthorizingHttpHandlerArgs where
  credentialsExtractor := { handleSafe := fun _ => .ok sampleCredentials }
  modesExtractor := { handleSafe := fun _ => .ok [AccessMode.read, AccessMode.write] }
  permissionReader :=
    { handleSafe := fun _ _ _ attrs => .ok (grantedPermissionSet, attrs) }
  authorizer := { handleSafe := fun _ _ _ _ => .ok () }
  operationHandler := { handleSafe := fun _ _ => .ok { statusCode := 200 } }
  identifierStrategy :=
    { isRootContainer := fun _ => false,
      getParentContainer := fun _ => { path := "http://localhost:3001/" } }
  accessor :=
    { getMetadata := fun _ =>
        .ok { entries := [(securePredicate, "http://localhost:3001/foo")] } }

/-- okAuthArgs with a failing credentials extractor. -/
def failingCredArgs : AuthorizingHttpHandlerArgs :=
  { okAuthArgs with credentialsExtractor :=
      { handleSafe := fun _ => .error HttpError.unauthorized } }

/-- okAuthArgs with a failing modes extractor. -/
def failingModesArgs : AuthorizingHttpHandlerArgs :=
  { okAuthArgs with modesExtractor :=
      { handleSafe := fun _ => .error HttpError.validation } }

/-- okAuthArgs with a failing permission reader. -/
def failingReaderArgs : AuthorizingHttpHandlerArgs :=
  { okAuthArgs with permissionReader :=
      { handleSafe := fun _ _ _ _ => .error (HttpError.internal 5) } }

/-- okAuthArgs with a failing authorizer. -/
def failingAuthorizerArgs : AuthorizingHttpHandlerArgs :=
  { okAuthArgs with authorizer :=
      { handleSafe := fun _ _ _ _ => .error HttpError.forbidden } }

/-- okAuthArgs with a failing metadata accessor (the secure block throws). -/
def failingAccessorArgs : AuthorizingHttpHandlerArgs :=
  { okAuthArgs with accessor :=
      { getMetadata := fun _ => .error (HttpError.internal 3) } }

/-- An initializer store whose every setRepresentation fails. -/
def alwaysFailInitStore : InitStore where
  setRepresentation := fun _ _ => .error (HttpError.internal 1)

/-- A file system where every operation succeeds and the account folder is
empty. -/
def emptyOkFileSystem : FileSystem where
  readdir := fun _ => .ok []
  mkdir := fun _ => .ok ()
  copyFile := fun _ _ => .error HttpError.notFound

/-- A file system whose copyFile fails on a non-empty account folder. -/
def brokenCopyFileSystem : FileSystem where
  readdir := fun _ => .ok ["acc.json"]
  mkdir := fun _ => .ok ()
  copyFile := fun _ _ => .error (HttpError.internal 9)

/-- A key-value storage whose set succeeds. -/
def okKeyValueStorage : KeyValueStorage where
  set := fun _ _ => .ok ()

/-- A generator yield list with two resources and no iteration failure. -/
def sampleGeneratorOutput :
    List (Except HttpError (ResourceIdentifier × Representation)) :=
  [.ok ({ path := "http://localhost:3001/a" }, {}),
   .ok ({ path := "http://localhost:3001/b" }, {})]

/-- A generator yield list whose iteration fails after the first resource. -/
def failingGeneratorOutput :
    List (Except HttpError (ResourceIdentifier × Representation)) :=
  [.ok ({ path := "http://localhost:3001/a" }, {}), .error (HttpError.internal 2)]

/-! Theorems. -/

/-- C5: for a PassthroughStore wrapping source store S, each of the six
operations forwards its arguments unchanged to the corresponding operation of
S and returns the result unmodified; since results carry the call trace the
source reports, the decorator's observable behaviour equals the source's, and
instantiating the source with a recording store shows the source observes
exactly one corresponding call with the same arguments. -/
theorem passthroughStore_pure_delegation (source : ResourceStore) :
    (∀ identifier, (PassthroughStore source).hasResource identifier =
      source.hasResource identifier) ∧
    (∀ identifier preferences conditions,
      (PassthroughStore source).getRepresentation identifier preferences conditions =
        source.getRepresentation identifier preferences conditions) ∧
    (∀ container representation conditions,
      (PassthroughStore source).addResource container representation conditions =
        source.addResource container representation conditions) ∧
    (∀ identifier conditions,
      (PassthroughStore source).deleteResource identifier conditions =
        source.deleteResource identifier conditions) ∧
    (∀ identifier patch conditions preferences,
      (PassthroughStore source).modifyResource identifier patch conditions preferences =
        source.modifyResource identifier patch conditions preferences) ∧
    (∀ identifier representation conditions preferences,
      (PassthroughStore source).setRepresentation identifier representation conditions
          preferences =
        source.setRepresentation identifier representation conditions preferences) ∧
    (∀ b identifier, (PassthroughStore (recordingStore b)).hasResource identifier =
      (b.hasResourceFn identifier, [StoreCall.hasResource identifier])) ∧
    (∀ b identifier preferences conditions,
      (PassthroughStore (recordingStore b)).getRepresentation identifier preferences
          conditions =
        (b.getRepresentationFn identifier preferences conditions,
         [StoreCall.getRepresentation identifier preferences conditions])) ∧
    (∀ b container representation conditions,
      (PassthroughStore (recordingStore b)).addResource container representation
          conditions =
        (b.addResourceFn container representation conditions,
         [StoreCall.addResource container representation conditions])) ∧
    (∀ b identifier conditions,
      (PassthroughStore (recordingStore b)).deleteResource identifier conditions =
        (b.deleteResourceFn identifier conditions,
         [StoreCall.deleteResource identifier conditions])) ∧
    (∀ b identifier patch conditions preferences,
      (PassthroughStore (recordingStore b)).modifyResource identifier patch conditions
          preferences =
        (b.modifyResourceFn identifier patch conditions preferences,
         [StoreCall.modifyResource identifier patch conditions preferences])) ∧
    (∀ b identifier representation conditions preferences,
      (PassthroughStore (recordingStore b)).setRepresentation identifier representation
          conditions preferences =
        (b.setRepresentationFn identifier representation conditions preferences,
         [StoreCall.setRepresentation identifier representation conditions
            preferences])) := by
  refine ⟨?_, ?_, ?_, ?_, ?_, ?_, ?_, ?_, ?_, ?_, ?_, ?_⟩ <;> intros <;> rfl

/-- C8: the conditional-mutation semantics of spec sections 4.2 and 5, modelled
from the spec because no concrete backend is part of the reviewed source:
each conditional mutation is one atomic step that evaluates the predicate
against the current state (so nothing can interleave between check and
apply), and for two mutations both conditioned on the same prior state token
the one scheduled first succeeds while the second fails PreconditionFailed
with the state left unchanged — quantifying over both representations covers
both execution orders, so at most one of the two observes its precondition
as satisfied. -/
theorem conditions_linearizable (s : CondStoreState) (r1 r2 : Representation) :
    (CondStore.setRepresentation s r1 (some (Conditions.ifMatch s.token))).1 =
      .ok () ∧
    (CondStore.setRepresentation
        (CondStore.setRepresentation s r1 (some (Conditions.ifMatch s.token))).2 r2
        (some (Conditions.ifMatch s.token))).1 =
      .error HttpError.preconditionFailed ∧
    (CondStore.setRepresentation
        (CondStore.setRepresentation s r1 (some (Conditions.ifMatch s.token))).2 r2
        (some (Conditions.ifMatch s.token))).2 =
      (CondStore.setRepresentation s r1 (some (Conditions.ifMatch s.token))).2 := by
  simp [CondStore.setRepresentation, Conditions.holds, Nat.succ_ne_self]

/-- C1: if the pre-read of RepresentationPatchHandler.handle fails with an
error other than NotFound, or the patcher invocation fails, the run produces
exactly the pre-read events (plus the patcher invocation in the second case)
and propagates the error: setRepresentation on the source store is never
invoked and no mutation event occurs, so the store's observable state is
unchanged by the attempt. -/
theorem representationPatchHandler_atomicity (patcher : RepresentationPatcher)
    (accessor : FileDataAccessor) (source : ResourceStore)
    (identifier : ResourceIdentifier) (patch : Patch)
    (preferences : Option RepresentationPreferences) :
    (∀ e, (source.getRepresentation identifier emptyPreferences none).1 = .error e →
      e ≠ HttpError.notFound →
      RepresentationPatchHandler.handle patcher accessor source identifier patch
          preferences =
        (.error e,
         (source.getRepresentation identifier emptyPreferences none).2.map
           PatchEvent.store)) ∧
    (∀ representation e,
      preReadOutcome source identifier = .ok representation →
      patcher.handleSafe patch identifier representation = .error e →
      RepresentationPatchHandler.handle patcher accessor source identifier patch
          preferences =
        (.error e,
         (source.getRepresentation identifier emptyPreferences none).2.map
             PatchEvent.store ++
           [PatchEvent.patcher patch identifier representation])) := by
  constructor
  · intro e he hne
    simp [RepresentationPatchHandler.handle, he, hne]
  · intro representation e h1 h2
    cases hg : (source.getRepresentation identifier emptyPreferences none).1 with
    | ok r =>
      simp [preReadOutcome, hg] at h1
      subst h1
      simp [RepresentationPatchHandler.handle, hg,
        RepresentationPatchHandler.afterPreRead, h2]
    | error e' =>
      cases e' with
      | notFound =>
        simp [preReadOutcome, hg] at h1
        subst h1
        simp [RepresentationPatchHandler.handle, hg,
          RepresentationPatchHandler.afterPreRead, h2]
      | preconditionFailed => simp [preReadOutcome, hg] at h1
      | unauthorized => simp [preReadOutcome, hg] at h1
      | forbidden => simp [preReadOutcome, hg] at h1
      | validation => simp [preReadOutcome, hg] at h1
      | internal code => simp [preReadOutcome, hg] at h1

/-- Witness for C1: with a store whose read fails with an internal error,
handle stops after the pre-read; with a deterministically failing patcher on
an existing resource, handle stops after the patcher call — in both runs no
setRepresentation and no accessor event occurs. -/
theorem representationPatchHandler_atomicity_witness :
    RepresentationPatchHandler.handle okPatcher okFileAccessor
        (recordingStore brokenStoreBehavior) sampleIdentifier securePatch none =
      (.error (HttpError.internal 7),
       [PatchEvent.store
          (StoreCall.getRepresentation sampleIdentifier emptyPreferences none)]) ∧
    RepresentationPatchHandler.handle failingPatcher okFileAccessor
        (recordingStore okStoreBehavior) sampleIdentifier securePatch none =
      (.error HttpError.validation,
       [PatchEvent.store
          (StoreCall.getRepresentation sampleIdentifier emptyPreferences none),
        PatchEvent.patcher securePatch sampleIdentifier
          (some sampleRepresentation)]) := by
  exact ⟨(representationPatchHandler_atomicity okPatcher okFileAccessor
      (recordingStore brokenStoreBehavior) sampleIdentifier securePatch none).1
      (HttpError.internal 7) rfl (by decide),
    (representationPatchHandler_atomicity failingPatcher okFileAccessor
      (recordingStore okStoreBehavior) sampleIdentifier securePatch none).2
      (some sampleRepresentation) HttpError.validation rfl rfl⟩

/-- C6: when the pre-read fails NotFound the protocol does not halt: the run
continues exactly as `afterPreRead` with an absent representation, and the
patcher is invoked with `representation = none`; any other pre-read failure
propagates unchanged and the protocol halts with only the pre-read events. -/
theorem representationPatchHandler_notFound_creates
    (patcher : RepresentationPatcher) (accessor : FileDataAccessor)
    (source : ResourceStore) (identifier : ResourceIdentifier) (patch : Patch)
    (preferences : Option RepresentationPreferences) :
    ((source.getRepresentation identifier emptyPreferences none).1 =
        .error HttpError.notFound →
      RepresentationPatchHandler.handle patcher accessor source identifier patch
          preferences =
        ((RepresentationPatchHandler.afterPreRead patcher accessor source identifier
            patch preferences none).1,
         (source.getRepresentation identifier emptyPreferences none).2.map
             PatchEvent.store ++
           (RepresentationPatchHandler.afterPreRead patcher accessor source
             identifier patch preferences none).2) ∧
      PatchEvent.patcher patch identifier none ∈
        (RepresentationPatchHandler.handle patcher accessor source identifier patch
          preferences).2) ∧
    (∀ e, (source.getRepresentation identifier emptyPreferences none).1 = .error e →
      e ≠ HttpError.notFound →
      RepresentationPatchHandler.handle patcher accessor source identifier patch
          preferences =
        (.error e,
         (source.getRepresentation identifier emptyPreferences none).2.map
           PatchEvent.store)) := by
  constructor
  · intro he
    constructor
    · simp [RepresentationPatchHandler.handle, he]
    · simp only [RepresentationPatchHandler.handle, he]
      cases hp : patcher.handleSafe patch identifier none with
      | ok patched =>
        simp [RepresentationPatchHandler.afterPreRead, hp]
      | error e =>
        simp [RepresentationPatchHandler.afterPreRead, hp]
  · intro e he hne
    simp [RepresentationPatchHandler.handle, he, hne]

/-- Witness for C6: on a store where the resource is absent (reads fail
NotFound), the patcher is invoked with an absent representation and the run
commits its output; with an internal pre-read error the run halts. -/
theorem representationPatchHandler_notFound_creates_witness :
    (RepresentationPatchHandler.handle okPatcher okFileAccessor
        (recordingStore missingStoreBehavior) sampleIdentifier plainPatch none =
      (.ok [sampleIdentifier],
       [PatchEvent.store
          (StoreCall.getRepresentation sampleIdentifier emptyPreferences none),
        PatchEvent.patcher plainPatch sampleIdentifier none,
        PatchEvent.store
          (StoreCall.setRepresentation sampleIdentifier patchedRepresentation none
            none)]) ∧
      PatchEvent.patcher plainPatch sampleIdentifier none ∈
        (RepresentationPatchHandler.handle okPatcher okFileAccessor
          (recordingStore missingStoreBehavior) sampleIdentifier plainPatch
          none).2) ∧
    RepresentationPatchHandler.handle okPatcher okFileAccessor
        (recordingStore brokenStoreBehavior) sampleIdentifier plainPatch none =
      (.error (HttpError.internal 7),
       [PatchEvent.store
          (StoreCall.getRepresentation sampleIdentifier emptyPreferences none)]) := by
  refine ⟨⟨?_, ?_⟩, ?_⟩
  · exact ((representationPatchHandler_notFound_creates okPatcher okFileAccessor
      (recordingStore missingStoreBehavior) sampleIdentifier plainPatch none).1
      rfl).1
  · exact ((representationPatchHandler_notFound_creates okPatcher okFileAccessor
      (recordingStore missingStoreBehavior) sampleIdentifier plainPatch none).1
      rfl).2
  · exact (representationPatchHandler_notFound_creates okPatcher okFileAccessor
      (recordingStore brokenStoreBehavior) sampleIdentifier plainPatch none).2
      (HttpError.internal 7) rfl (by decide)

/-- C7: whenever the pre-read resolves (to a representation or to an absence
after NotFound) and the patcher succeeds with `patched`, the commit is
exactly `source.setRepresentation(identifier, patched, undefined,
preferences)` — conditions always absent, the representation exactly the
patcher's output, the caller's preferences forwarded — and handle returns
that call's result; the trace is the pre-read events, the patcher call, the
secure-block events and exactly that one commit call. -/
theorem representationPatchHandler_commit (patcher : RepresentationPatcher)
    (accessor : FileDataAccessor) (source : ResourceStore)
    (identifier : ResourceIdentifier) (patch : Patch)
    (preferences : Option RepresentationPreferences) :
    ∀ representation patched,
      preReadOutcome source identifier = .ok representation →
      patcher.handleSafe patch identifier representation = .ok patched →
      RepresentationPatchHandler.handle patcher accessor source identifier patch
          preferences =
        ((source.setRepresentation identifier patched none preferences).1,
         (source.getRepresentation identifier emptyPreferences none).2.map
             PatchEvent.store ++
           (PatchEvent.patcher patch identifier representation ::
             (RepresentationPatchHandler.secureBlock accessor patch ++
               (source.setRepresentation identifier patched none
                 preferences).2.map PatchEvent.store))) := by
  intro representation patched h1 h2
  cases hg : (source.getRepresentation identifier emptyPreferences none).1 with
  | ok r =>
    simp [preReadOutcome, hg] at h1
    subst h1
    simp [RepresentationPatchHandler.handle, hg,
      RepresentationPatchHandler.afterPreRead, h2]
  | error e' =>
    cases e' with
    | notFound =>
      simp [preReadOutcome, hg] at h1
      subst h1
      simp [RepresentationPatchHandler.handle, hg,
        RepresentationPatchHandler.afterPreRead, h2]
    | preconditionFailed => simp [preReadOutcome, hg] at h1
    | unauthorized => simp [preReadOutcome, hg] at h1
    | forbidden => simp [preReadOutcome, hg] at h1
    | validation => simp [preReadOutcome, hg] at h1
    | internal code => simp [preReadOutcome, hg] at h1

/-- Witness for C7: on an existing resource with a succeeding patcher, the
run ends with exactly the commit call carrying the patcher output, no
conditions and the forwarded preferences, and returns its result. -/
theorem representationPatchHandler_commit_witness :
    RepresentationPatchHandler.handle okPatcher okFileAccessor
        (recordingStore okStoreBehavior) sampleIdentifier plainPatch
        (some emptyPreferences) =
      (.ok [sampleIdentifier],
       [PatchEvent.store
          (StoreCall.getRepresentation sampleIdentifier emptyPreferences none),
        PatchEvent.patcher plainPatch sampleIdentifier (some sampleRepresentation),
        PatchEvent.store
          (StoreCall.setRepresentation sampleIdentifier patchedRepresentation none
            (some emptyPreferences))]) := by
  exact (representationPatchHandler_commit okPatcher okFileAccessor
      (recordingStore okStoreBehavior) sampleIdentifier plainPatch
      (some emptyPreferences) (some sampleRepresentation) patchedRepresentation
      rfl rfl)

/-- C2 fails on the code: RepresentationPatchHandler.handle does inspect the
patch contents — on a patch whose algebra deletes a quad with the secureOff
predicate it performs file-accessor reads and writes outside the declared
ResourceStore operations, while the same input with a different predicate
triggers none; the accessor effects are a function of the patch's contents. -/
theorem representationPatchHandler_patch_inspection :
    ((RepresentationPatchHandler.handle okPatcher okFileAccessor
        (recordingStore okStoreBehavior) sampleIdentifier securePatch none).2.filter
          PatchEvent.isAccessorCall =
      [PatchEvent.accessorGetData { path := "http://localhost:3001/s" }
          (some { enable := 0 }),
       PatchEvent.accessorWriteDocument { path := "http://localhost:3001/s" }
         none]) ∧
    ((RepresentationPatchHandler.handle okPatcher okFileAccessor
        (recordingStore okStoreBehavior) sampleIdentifier plainPatch none).2.filter
          PatchEvent.isAccessorCall = []) := by
  constructor <;> rfl

/-- The secure block only ever touches `preferences.secure`: every other
field of the operation (and every other preference) survives it unchanged. -/
theorem secureBlock_only_touches_secure (strategy : IdentifierStrategy)
    (accessor : MetadataAccessor) (operation : Operation) :
    (AuthorizingHttpHandler.secureBlock strategy accessor operation).1.method =
      operation.method ∧
    (AuthorizingHttpHandler.secureBlock strategy accessor operation).1.target =
      operation.target ∧
    (AuthorizingHttpHandler.secureBlock strategy accessor operation).1.body =
      operation.body ∧
    (AuthorizingHttpHandler.secureBlock strategy accessor operation).1.bodySparql =
      operation.bodySparql ∧
    (AuthorizingHttpHandler.secureBlock strategy accessor
        operation).1.preferences.extra =
      operation.preferences.extra ∧
    (AuthorizingHttpHandler.secureBlock strategy accessor operation).1.permissionSet =
      operation.permissionSet ∧
    (AuthorizingHttpHandler.secureBlock strategy accessor
        operation).1.attributePermissions =
      operation.attributePermissions := by
  unfold AuthorizingHttpHandler.secureBlock
  cases hroot : strategy.isRootContainer operation.target with
  | true => simp
  | false =>
    cases hm : accessor.getMetadata (strategy.getParentContainer operation.target) with
    | error e => simp [hm]
    | ok metadata => simp [hm]

/-- C3: the four stages of AuthorizingHttpHandler.handle run strictly in
order; when a stage fails its error propagates immediately and the run's
whole trace is exactly the stage calls up to and including the failing one —
in particular the downstream operation handler is never invoked and no store
or accessor call occurs. -/
theorem authorizingHttpHandler_short_circuit (args : AuthorizingHttpHandlerArgs)
    (request : Request) (operation : Operation) :
    (∀ e, args.credentialsExtractor.handleSafe request = .error e →
      AuthorizingHttpHandler.handle args request operation =
        (.error e, operation, [AuthEvent.credentialsCall request])) ∧
    (∀ credentials e, args.credentialsExtractor.handleSafe request = .ok credentials →
      args.modesExtractor.handleSafe operation = .error e →
      AuthorizingHttpHandler.handle args request operation =
        (.error e, operation,
         [AuthEvent.credentialsCall request, AuthEvent.modesCall operation])) ∧
    (∀ credentials modes e,
      args.credentialsExtractor.handleSafe request = .ok credentials →
      args.modesExtractor.handleSafe operation = .ok modes →
      args.permissionReader.handleSafe credentials operation.target modes
          { readOnly := [], hide := [] } = .error e →
      AuthorizingHttpHandler.handle args request operation =
        (.error e, operation,
         [AuthEvent.credentialsCall request, AuthEvent.modesCall operation,
          AuthEvent.permissionCall credentials operation.target modes
            { readOnly := [], hide := [] }])) ∧
    (∀ credentials modes permissionSet attributePermissions e,
      args.credentialsExtractor.handleSafe request = .ok credentials →
      args.modesExtractor.handleSafe operation = .ok modes →
      args.permissionReader.handleSafe credentials operation.target modes
          { readOnly := [], hide := [] } =
        .ok (permissionSet, attributePermissions) →
      args.authorizer.handleSafe credentials operation.target modes permissionSet =
        .error e →
      AuthorizingHttpHandler.handle args request operation =
        (.error e, operation,
         [AuthEvent.credentialsCall request, AuthEvent.modesCall operation,
          AuthEvent.permissionCall credentials operation.target modes
            { readOnly := [], hide := [] },
          AuthEvent.authorizeCall credentials operation.target modes
            permissionSet])) := by
  refine ⟨?_, ?_, ?_, ?_⟩
  · intro e h1
    simp [AuthorizingHttpHandler.handle, h1]
  · intro credentials e h1 h2
    simp [AuthorizingHttpHandler.handle, h1, h2]
  · intro credentials modes e h1 h2 h3
    simp [AuthorizingHttpHandler.handle, h1, h2, h3]
  · intro credentials modes permissionSet attributePermissions e h1 h2 h3 h4
    simp [AuthorizingHttpHandler.handle, h1, h2, h3, h4]

/-- Witness for C3: with each of the four stages made to fail
deterministically, the run stops at that stage with exactly the stage calls
so far in the trace and no downstream call. -/
theorem authorizingHttpHandler_short_circuit_witness :
    AuthorizingHttpHandler.handle failingCredArgs sampleRequest sampleOperation =
      (.error HttpError.unauthorized, sampleOperation,
       [AuthEvent.credentialsCall sampleRequest]) ∧
    AuthorizingHttpHandler.handle failingModesArgs sampleRequest sampleOperation =
      (.error HttpError.validation, sampleOperation,
       [AuthEvent.credentialsCall sampleRequest,
        AuthEvent.modesCall sampleOperation]) ∧
    AuthorizingHttpHandler.handle failingReaderArgs sampleRequest sampleOperation =
      (.error (HttpError.internal 5), sampleOperation,
       [AuthEvent.credentialsCall sampleRequest, AuthEvent.modesCall sampleOperation,
        AuthEvent.permissionCall sampleCredentials sampleOperation.target
          [AccessMode.read, AccessMode.write] { readOnly := [], hide := [] }]) ∧
    AuthorizingHttpHandler.handle failingAuthorizerArgs sampleRequest
        sampleOperation =
      (.error HttpError.forbidden, sampleOperation,
       [AuthEvent.credentialsCall sampleRequest, AuthEvent.modesCall sampleOperation,
        AuthEvent.permissionCall sampleCredentials sampleOperation.target
          [AccessMode.read, AccessMode.write] { readOnly := [], hide := [] },
        AuthEvent.authorizeCall sampleCredentials sampleOperation.target
          [AccessMode.read, AccessMode.write] grantedPermissionSet]) := by
  refine ⟨?_, ?_, ?_, ?_⟩
  · exact (authorizingHttpHandler_short_circuit failingCredArgs sampleRequest
      sampleOperation).1 HttpError.unauthorized rfl
  · exact (authorizingHttpHandler_short_circuit failingModesArgs sampleRequest
      sampleOperation).2.1 sampleCredentials HttpError.validation rfl rfl
  · exact (authorizingHttpHandler_short_circuit failingReaderArgs sampleRequest
      sampleOperation).2.2.1 sampleCredentials [AccessMode.read, AccessMode.write]
      (HttpError.internal 5) rfl rfl rfl
  · exact (authorizingHttpHandler_short_circuit failingAuthorizerArgs sampleRequest
      sampleOperation).2.2.2 sampleCredentials [AccessMode.read, AccessMode.write]
      grantedPermissionSet { readOnly := [], hide := [] } HttpError.forbidden
      rfl rfl rfl rfl

/-- C4 fails on the code: on a successful run the operation forwarded
downstream does not merely gain the permission set — the handler also
attaches the attribute-permissions record (absent on the incoming operation)
and the secure block rewrites `preferences.secure`, so other fields of the
operation are added and changed between authorization success and the
downstream call. -/
theorem authorizingHttpHandler_forwarding_cex :
    (AuthorizingHttpHandler.handle okAuthArgs sampleRequest
        sampleOperation).2.1.permissionSet = some grantedPermissionSet ∧
    sampleOperation.attributePermissions = none ∧
    (AuthorizingHttpHandler.handle okAuthArgs sampleRequest
        sampleOperation).2.1.attributePermissions ≠
      sampleOperation.attributePermissions ∧
    (AuthorizingHttpHandler.handle okAuthArgs sampleRequest
        sampleOperation).2.1.preferences.secure ≠
      sampleOperation.preferences.secure := by
  refine ⟨rfl, rfl, ?_, ?_⟩ <;> decide

/-- C4 amended: on authorize success the handler attaches the permission set
and the attribute-permissions record to the operation, and the secure block
may additionally set `preferences.secure` from the parent container's
secureOff metadata; in every other respect (method, target, body, the other
preferences) the operation is forwarded unchanged to the next handler, which
is called exactly once with it. -/
theorem authorizingHttpHandler_forwarding_amended
    (args : AuthorizingHttpHandlerArgs) (request : Request) (operation : Operation)
    (credentials : CredentialSet) (modes : List AccessMode)
    (permissionSet : PermissionSet) (attributePermissions : AttributePermissions)
    (h1 : args.credentialsExtractor.handleSafe request = .ok credentials)
    (h2 : args.modesExtractor.handleSafe operation = .ok modes)
    (h3 : args.permissionReader.handleSafe credentials operation.target modes
        { readOnly := [], hide := [] } = .ok (permissionSet, attributePermissions))
    (h4 : args.authorizer.handleSafe credentials operation.target modes
        permissionSet = .ok ()) :
    AuthorizingHttpHandler.handle args request operation =
      (args.operationHandler.handleSafe request
         (AuthorizingHttpHandler.secureBlock args.identifierStrategy args.accessor
           { operation with
        permissionSet := some permissionSet,
             attributePermissions := some attributePermissions }).1,
       (AuthorizingHttpHandler.secureBlock args.identifierStrategy args.accessor
         { operation with
        permissionSet := some permissionSet,
           attributePermissions := some attributePermissions }).1,
       [AuthEvent.credentialsCall request, AuthEvent.modesCall operation,
        AuthEvent.permissionCall credentials operation.target modes
          { readOnly := [], hide := [] },
        AuthEvent.authorizeCall credentials operation.target modes permissionSet] ++
         (AuthorizingHttpHandler.secureBlock args.identifierStrategy args.accessor
           { operation with
        permissionSet := some permissionSet,
             attributePermissions := some attributePermissions }).2 ++
         [AuthEvent.downstreamCall
            (AuthorizingHttpHandler.secureBlock args.identifierStrategy args.accessor
              { operation with
        permissionSet := some permissionSet,
                attributePermissions := some attributePermissions }).1]) ∧
    (AuthorizingHttpHandler.secureBlock args.identifierStrategy args.accessor
      { operation with
        permissionSet := some permissionSet,
        attributePermissions := some attributePermissions }).1.method =
      operation.method ∧
    (AuthorizingHttpHandler.secureBlock args.identifierStrategy args.accessor
      { operation with
        permissionSet := some permissionSet,
        attributePermissions := some attributePermissions }).1.target =
      operation.target ∧
    (AuthorizingHttpHandler.secureBlock args.identifierStrategy args.accessor
      { operation with
        permissionSet := some permissionSet,
        attributePermissions := some attributePermissions }).1.body =
      operation.body ∧
    (AuthorizingHttpHandler.secureBlock args.identifierStrategy args.accessor
      { operation with
        permissionSet := some permissionSet,
        attributePermissions := some attributePermissions }).1.bodySparql =
      operation.bodySparql ∧
    (AuthorizingHttpHandler.secureBlock args.identifierStrategy args.accessor
      { operation with
        permissionSet := some permissionSet,
        attributePermissions := some attributePermissions }).1.preferences.extra =
      operation.preferences.extra ∧
    (AuthorizingHttpHandler.secureBlock args.identifierStrategy args.accessor
      { operation with
        permissionSet := some permissionSet,
        attributePermissions := some attributePermissions }).1.permissionSet =
      some permissionSet ∧
    (AuthorizingHttpHandler.secureBlock args.identifierStrategy args.accessor
      { operation with
        permissionSet := some permissionSet,
        attributePermissions := some attributePermissions }).1.attributePermissions =
      some attributePermissions := by
  have frame := secureBlock_only_touches_secure args.identifierStrategy args.accessor
    { operation with
      permissionSet := some permissionSet,
      attributePermissions := some attributePermissions }
  refine ⟨?_, frame.1, frame.2.1, frame.2.2.1, frame.2.2.2.1, frame.2.2.2.2.1,
    frame.2.2.2.2.2.1, frame.2.2.2.2.2.2⟩
  simp [AuthorizingHttpHandler.handle, h1, h2, h3, h4]

/-- Witness for the amended C4: on the sample pipeline the downstream handler
receives the operation with the permission set, the attribute-permissions
record and the secure preference attached, and everything else as sent. -/
theorem authorizingHttpHandler_forwarding_amended_witness :
    AuthorizingHttpHandler.handle okAuthArgs sampleRequest sampleOperation =
      (.ok { statusCode := 200 },
       { sampleOperation with
          permissionSet := some grantedPermissionSet,
          attributePermissions := some { readOnly := [], hide := [] },
          preferences := { secure := some { enable := 0 }, extra := [] } },
       [AuthEvent.credentialsCall sampleRequest,
        AuthEvent.modesCall sampleOperation,
        AuthEvent.permissionCall sampleCredentials sampleOperation.target
          [AccessMode.read, AccessMode.write] { readOnly := [], hide := [] },
        AuthEvent.authorizeCall sampleCredentials sampleOperation.target
          [AccessMode.read, AccessMode.write] grantedPermissionSet,
        AuthEvent.metadataCall { path := "http://localhost:3001/" },
        AuthEvent.downstreamCall
          { sampleOperation with
             permissionSet := some grantedPermissionSet,
             attributePermissions := some { readOnly := [], hide := [] },
             preferences := { secure := some { enable := 0 }, extra := [] } }]) := by
  exact (authorizingHttpHandler_forwarding_amended okAuthArgs sampleRequest
    sampleOperation sampleCredentials [AccessMode.read, AccessMode.write]
    grantedPermissionSet { readOnly := [], hide := [] } rfl rfl rfl rfl).1

/-- C9: once the four stages have succeeded, a failure of the secure-flag
block (here: the parent-container metadata read erroring) is caught and only
logged — the run still invokes the downstream operation handler, with the
operation carrying the permission set and attribute permissions but an
untouched `preferences.secure`, and the request's outcome is exactly the
downstream handler's. -/
theorem authorizingHttpHandler_secure_errors_swallowed
    (args : AuthorizingHttpHandlerArgs) (request : Request) (operation : Operation)
    (credentials : CredentialSet) (modes : List AccessMode)
    (permissionSet : PermissionSet) (attributePermissions : AttributePermissions)
    (e : HttpError)
    (h1 : args.credentialsExtractor.handleSafe request = .ok credentials)
    (h2 : args.modesExtractor.handleSafe operation = .ok modes)
    (h3 : args.permissionReader.handleSafe credentials operation.target modes
        { readOnly := [], hide := [] } = .ok (permissionSet, attributePermissions))
    (h4 : args.authorizer.handleSafe credentials operation.target modes
        permissionSet = .ok ())
    (hroot : args.identifierStrategy.isRootContainer operation.target = false)
    (hm : args.accessor.getMetadata
        (args.identifierStrategy.getParentContainer operation.target) = .error e) :
    AuthorizingHttpHandler.handle args request operation =
      (args.operationHandler.handleSafe request
         { operation with
        permissionSet := some permissionSet,
           attributePermissions := some attributePermissions },
       { operation with
        permissionSet := some permissionSet,
         attributePermissions := some attributePermissions },
       [AuthEvent.credentialsCall request, AuthEvent.modesCall operation,
        AuthEvent.permissionCall credentials operation.target modes
          { readOnly := [], hide := [] },
        AuthEvent.authorizeCall credentials operation.target modes permissionSet,
        AuthEvent.metadataCall
          (args.identifierStrategy.getParentContainer operation.target),
        AuthEvent.downstreamCall
          { operation with
        permissionSet := some permissionSet,
            attributePermissions := some attributePermissions }]) := by
  simp [AuthorizingHttpHandler.handle, h1, h2, h3, h4,
    AuthorizingHttpHandler.secureBlock, hroot, hm]

/-- Witness for C9: with the metadata accessor failing deterministically, the
sample pipeline still reaches the downstream handler and returns its
response. -/
theorem authorizingHttpHandler_secure_errors_swallowed_witness :
    AuthorizingHttpHandler.handle failingAccessorArgs sampleRequest
        sampleOperation =
      (.ok { statusCode := 200 },
       { sampleOperation with
          permissionSet := some grantedPermissionSet,
          attributePermissions := some { readOnly := [], hide := [] } },
       [AuthEvent.credentialsCall sampleRequest,
        AuthEvent.modesCall sampleOperation,
        AuthEvent.permissionCall sampleCredentials sampleOperation.target
          [AccessMode.read, AccessMode.write] { readOnly := [], hide := [] },
        AuthEvent.authorizeCall sampleCredentials sampleOperation.target
          [AccessMode.read, AccessMode.write] grantedPermissionSet,
        AuthEvent.metadataCall { path := "http://localhost:3001/" },
        AuthEvent.downstreamCall
          { sampleOperation with
             permissionSet := some grantedPermissionSet,
             attributePermissions := some { readOnly := [], hide := [] } }]) := by
  exact authorizingHttpHandler_secure_errors_swallowed failingAccessorArgs
    sampleRequest sampleOperation sampleCredentials
    [AccessMode.read, AccessMode.write] grantedPermissionSet
    { readOnly := [], hide := [] } (HttpError.internal 3) rfl rfl rfl rfl rfl rfl

/-- The resource loop only emits setRepresentation events; in particular it
never emits the completion flag. -/
theorem resourceLoop_noFlags (store : InitStore)
    (l : List (Except HttpError (ResourceIdentifier × Representation))) :
    (ContainerInitializer.resourceLoop store l).2.all
      (fun ev => !ev.isFlagSet) = true := by
  induction l with
  | nil => rfl
  | cons head tail ih =>
    cases head with
    | error e => rfl
    | ok pair =>
      obtain ⟨id, rep⟩ := pair
      simp only [ContainerInitializer.resourceLoop, List.all_cons,
        InitEvent.isFlagSet, Bool.not_false, Bool.true_and]
      exact ih

/-- The copy loop only emits copyFile events. -/
theorem copyLoop_noFlags (fs : FileSystem) (accountFolder destDir : String)
    (files : List String) :
    (ContainerInitializer.copyLoop fs accountFolder destDir files).2.all
      (fun ev => !ev.isFlagSet) = true := by
  induction files with
  | nil => rfl
  | cons name rest ih =>
    cases hc : fs.copyFile (joinFilePath accountFolder name)
        (joinFilePath destDir name) with
    | error e =>
      simp [ContainerInitializer.copyLoop, hc, InitEvent.isFlagSet]
    | ok u =>
      simp only [ContainerInitializer.copyLoop, hc, List.all_cons,
        InitEvent.isFlagSet, Bool.not_false, Bool.true_and]
      exact ih

/-- The account-folder block never emits the completion flag. -/
theorem copyAccounts_noFlags (fs : FileSystem)
    (rootFilePath accountFolder : String) :
    (ContainerInitializer.copyAccounts fs rootFilePath accountFolder).2.all
      (fun ev => !ev.isFlagSet) = true := by
  cases hr : fs.readdir accountFolder with
  | error e =>
    simp [ContainerInitializer.copyAccounts, hr, InitEvent.isFlagSet]
  | ok files =>
    by_cases hf : files.isEmpty
    · simp [ContainerInitializer.copyAccounts, hr, hf, InitEvent.isFlagSet]
    · cases hm : fs.mkdir (joinFilePath rootFilePath ".internal/accounts") with
      | error e =>
        simp [ContainerInitializer.copyAccounts, hr, hf, hm, InitEvent.isFlagSet]
      | ok u =>
        simp only [ContainerInitializer.copyAccounts, hr, hf, hm, if_false,
          List.all_cons, InitEvent.isFlagSet, Bool.not_false, Bool.true_and]
        exact copyLoop_noFlags fs accountFolder
          (joinFilePath rootFilePath ".internal/accounts") files

/-- When no yield of the generator is an iteration failure, the resource loop
resolves (per-resource store failures are caught). -/
theorem resourceLoop_ok_of_no_error (store : InitStore)
    (l : List (Except HttpError (ResourceIdentifier × Representation)))
    (h : ∀ x ∈ l, ∃ y, x = .ok y) :
    ∃ n, (ContainerInitializer.resourceLoop store l).1 = .ok n := by
  induction l with
  | nil => exact ⟨0, rfl⟩
  | cons head tail ih =>
    obtain ⟨y, hy⟩ := h head (List.mem_cons_self head tail)
    subst hy
    obtain ⟨id, rep⟩ := y
    obtain ⟨n, hn⟩ := ih (fun x hx => h x (List.mem_cons_of_mem _ hx))
    refine ⟨n + (match store.setRepresentation id rep with
      | .ok _ => 1
      | .error _ => 0), ?_⟩
    simp [ContainerInitializer.resourceLoop, hn, Except.map]

/-- When some yield of the generator is an iteration failure, the resource
loop fails. -/
theorem resourceLoop_error_of_mem (store : InitStore)
    (l : List (Except HttpError (ResourceIdentifier × Representation)))
    (e : HttpError) (h : .error e ∈ l) :
    ∃ f, (ContainerInitializer.resourceLoop store l).1 = .error f := by
  induction l with
  | nil => cases h
  | cons head tail ih =>
    cases head with
    | error f => exact ⟨f, by simp [ContainerInitializer.resourceLoop]⟩
    | ok pair =>
      obtain ⟨id, rep⟩ := pair
      rcases List.mem_cons.mp h with h1 | h2
      · cases h1
      · obtain ⟨f, hf⟩ := ih h2
        exact ⟨f, by simp [ContainerInitializer.resourceLoop, hf, Except.map]⟩

/-- Every successfully yielded resource is attempted by the loop, whatever
the store answers. -/
theorem resourceLoop_attempts (store : InitStore)
    (l : List (Except HttpError (ResourceIdentifier × Representation)))
    (hok : ∀ x ∈ l, ∃ y, x = .ok y)
    (id : ResourceIdentifier) (rep : Representation) (h : .ok (id, rep) ∈ l) :
    InitEvent.setRepresentationCall id rep ∈
      (ContainerInitializer.resourceLoop store l).2 := by
  induction l with
  | nil => cases h
  | cons head tail ih =>
    obtain ⟨y, hy⟩ := hok head (List.mem_cons_self head tail)
    subst hy
    obtain ⟨id2, rep2⟩ := y
    rcases List.mem_cons.mp h with h1 | h2
    · injection h1 with h1
      injection h1 with ha hb
      subst ha
      subst hb
      simp [ContainerInitializer.resourceLoop]
    · simp only [ContainerInitializer.resourceLoop, List.mem_cons]
      exact Or.inr (ih (fun x hx => hok x (List.mem_cons_of_mem _ hx)) h2)

/-- C10: in ContainerInitializer.handle, per-resource setRepresentation
failures are caught — when the generator iteration yields no failure, every
yielded resource is attempted and (when the account-folder block does not
fail and the flag write works) the completion flag is set at the end, with no
assumption on the store's answers, so even when every resource creation
failed; conversely a generator-iteration failure or an account-folder block
failure propagates and the flag is never set. -/
theorem containerInitializer_resilient (store : InitStore) (fs : FileSystem)
    (storage : KeyValueStorage) (storageKey : String)
    (generatorOutput : List (Except HttpError (ResourceIdentifier × Representation)))
    (rootFilePath : Option String) (accountFolder : String) :
    ((∀ x ∈ generatorOutput, ∃ y, x = .ok y) →
      storage.set storageKey true = .ok () →
      (rootFilePath = none ∨ ∃ root, rootFilePath = some root ∧
        (ContainerInitializer.copyAccounts fs root accountFolder).1 = .ok ()) →
      (InitEvent.flagSet storageKey true ∈
        (ContainerInitializer.handle store fs storage storageKey generatorOutput
          rootFilePath accountFolder).2 ∧
       ∀ id rep, .ok (id, rep) ∈ generatorOutput →
         InitEvent.setRepresentationCall id rep ∈
           (ContainerInitializer.handle store fs storage storageKey generatorOutput
             rootFilePath accountFolder).2)) ∧
    ((∃ e, .error e ∈ generatorOutput) →
      ∀ ev ∈ (ContainerInitializer.handle store fs storage storageKey
        generatorOutput rootFilePath accountFolder).2, ev.isFlagSet = false) ∧
    (∀ root e, rootFilePath = some root →
      (∀ x ∈ generatorOutput, ∃ y, x = .ok y) →
      (ContainerInitializer.copyAccounts fs root accountFolder).1 = .error e →
      ((ContainerInitializer.handle store fs storage storageKey generatorOutput
          rootFilePath accountFolder).1 = .error e ∧
       ∀ ev ∈ (ContainerInitializer.handle store fs storage storageKey
         generatorOutput rootFilePath accountFolder).2, ev.isFlagSet = false)) := by
  refine ⟨?_, ?_, ?_⟩
  · intro h1 hset hcopy
    obtain ⟨n, hn⟩ := resourceLoop_ok_of_no_error store generatorOutput h1
    have htrace : (ContainerInitializer.handle store fs storage storageKey
        generatorOutput rootFilePath accountFolder).2 =
        (ContainerInitializer.resourceLoop store generatorOutput).2 ++
          (match rootFilePath with
            | none => ((.ok () : Except HttpError Unit), ([] : List InitEvent))
            | some root => ContainerInitializer.copyAccounts fs root
                accountFolder).2 ++
          [InitEvent.flagSet storageKey true] := by
      rcases hcopy with hnone | ⟨root, hroot, hok⟩
      · subst hnone
        simp [ContainerInitializer.handle, hn, hset]
      · subst hroot
        simp [ContainerInitializer.handle, hn, hset, hok]
    constructor
    · rw [htrace]
      simp
    · intro id rep hmem
      rw [htrace]
      simp only [List.mem_append]
      exact Or.inl (Or.inl
        (resourceLoop_attempts store generatorOutput h1 id rep hmem))
  · intro hbad
    obtain ⟨e, he⟩ := hbad
    obtain ⟨f, hf⟩ := resourceLoop_error_of_mem store generatorOutput e he
    have htrace : (ContainerInitializer.handle store fs storage storageKey
        generatorOutput rootFilePath accountFolder).2 =
        (ContainerInitializer.resourceLoop store generatorOutput).2 := by
      simp [ContainerInitializer.handle, hf]
    rw [htrace]
    intro ev hev
    have hall := List.all_eq_true.mp (resourceLoop_noFlags store generatorOutput)
      ev hev
    simpa using hall
  · intro root e hroot h1 hcopy
    subst hroot
    obtain ⟨n, hn⟩ := resourceLoop_ok_of_no_error store generatorOutput h1
    have hhandle : ContainerInitializer.handle store fs storage storageKey
        generatorOutput (some root) accountFolder =
        (.error e,
         (ContainerInitializer.resourceLoop store generatorOutput).2 ++
           (ContainerInitializer.copyAccounts fs root accountFolder).2) := by
      simp [ContainerInitializer.handle, hn, hcopy]
    rw [hhandle]
    refine ⟨rfl, ?_⟩
    intro ev hev
    rcases List.mem_append.mp hev with hev | hev
    · have hall := List.all_eq_true.mp (resourceLoop_noFlags store generatorOutput)
        ev hev
      simpa using hall
    · have hall := List.all_eq_true.mp
        (copyAccounts_noFlags fs root accountFolder) ev hev
      simpa using hall

/-- Witness for C10: with a store whose every setRepresentation fails, both
sample resources are still attempted and the flag is set; with a failing
generator iteration, or with a copy failure of a non-empty account folder,
the run errors and emits no flag event. -/
theorem containerInitializer_resilient_witness :
    (InitEvent.flagSet "init" true ∈
      (ContainerInitializer.handle alwaysFailInitStore emptyOkFileSystem
        okKeyValueStorage "init" sampleGeneratorOutput none "accounts").2 ∧
     InitEvent.setRepresentationCall { path := "http://localhost:3001/a" } {} ∈
       (ContainerInitializer.handle alwaysFailInitStore emptyOkFileSystem
         okKeyValueStorage "init" sampleGeneratorOutput none "accounts").2) ∧
    (∀ ev ∈ (ContainerInitializer.handle alwaysFailInitStore emptyOkFileSystem
        okKeyValueStorage "init" failingGeneratorOutput none "accounts").2,
      ev.isFlagSet = false) ∧
    ((ContainerInitializer.handle alwaysFailInitStore brokenCopyFileSystem
        okKeyValueStorage "init" sampleGeneratorOutput (some "/data")
        "accounts").1 = .error (HttpError.internal 9) ∧
     ∀ ev ∈ (ContainerInitializer.handle alwaysFailInitStore brokenCopyFileSystem
        okKeyValueStorage "init" sampleGeneratorOutput (some "/data")
        "accounts").2, ev.isFlagSet = false) := by
  have hok : ∀ x ∈ sampleGeneratorOutput, ∃ y, x = .ok y := by
    intro x hx
    cases hx with
    | head => exact ⟨_, rfl⟩
    | tail _ hx2 =>
      cases hx2 with
      | head => exact ⟨_, rfl⟩
      | tail _ hx3 => cases hx3
  refine ⟨?_, ?_, ?_⟩
  · refine ⟨?_, ?_⟩
    · exact ((containerInitializer_resilient alwaysFailInitStore emptyOkFileSystem
        okKeyValueStorage "init" sampleGeneratorOutput none "accounts").1
        hok rfl (Or.inl rfl)).1
    · exact ((containerInitializer_resilient alwaysFailInitStore emptyOkFileSystem
        okKeyValueStorage "init" sampleGeneratorOutput none "accounts").1
        hok rfl (Or.inl rfl)).2 { path := "http://localhost:3001/a" } {}
        (List.Mem.head _)
  · exact (containerInitializer_resilient alwaysFailInitStore emptyOkFileSystem
      okKeyValueStorage "init" failingGeneratorOutput none "accounts").2.1
      ⟨HttpError.internal 2, List.Mem.tail _ (List.Mem.head _)⟩
  · exact (containerInitializer_resilient alwaysFailInitStore brokenCopyFileSystem
      okKeyValueStorage "init" sampleGeneratorOutput (some "/data")
      "accounts").2.2 "/data" (HttpError.internal 9) rfl hok rfl

end CommunityServer
